import Mathlib

/-!
Verification of the wishlist price-tracking and reconciliation pipeline of the
game-deals-tracker repository: a shallow embedding of the price checker
(`checkGamePrice`, `checkAllPrices`, `generateDealReport`), the wishlist store
(`addToWishlist`, `removeFromWishlist`, `updateTargetPrice`), the local-storage
serialization of wishlist items, and the email dispatcher (`sendEmail` with
`isValidEmail` and `sanitizeString`).

Modelling conventions:
- JavaScript numbers used as prices are modelled as rationals; the provider
  returns decimal price strings which the code passes through parseFloat, so a
  deal in the embedding carries its prices directly as rationals.
- JavaScript strings handled character by character (email addresses,
  sanitized fields, ISO date strings) are modelled as lists of characters;
  identifier-like strings (gameID, storeID, URLs) stay Lean strings.
- Date objects are modelled by their civil (calendar) fields, the content
  that toISOString renders and that the local-storage round trip preserves.
- Asynchronous effects are modelled by explicit parameters: the network fetch
  becomes a function argument returning an exceptional or successful value,
  and the mail transport becomes a function argument plus an effect trace.
-/

/-- Calendar timestamp: the civil fields a JavaScript Date renders through
toISOString (year-month-day, hour:minute:second.millisecond, UTC). -/
structure DateTime where
  year : Nat
  month : Nat
  day : Nat
  hour : Nat
  minute : Nat
  second : Nat
  millisecond : Nat
deriving DecidableEq, Repr

/-- Valid ranges of the civil fields (four-digit year as emitted by
toISOString for contemporary dates). -/
def ValidDateTime (dt : DateTime) : Prop :=
  dt.year ≤ 9999 ∧ 1 ≤ dt.month ∧ dt.month ≤ 12 ∧ 1 ≤ dt.day ∧ dt.day ≤ 31 ∧
  dt.hour ≤ 23 ∧ dt.minute ≤ 59 ∧ dt.second ≤ 59 ∧ dt.millisecond ≤ 999

instance (dt : DateTime) : Decidable (ValidDateTime dt) := by
  unfold ValidDateTime; infer_instance

/-- Monotone numeric key of a valid timestamp: chronological order of civil
timestamps is the lexicographic order of their fields, realised here as a
mixed-radix encoding. -/
def dateKey (dt : DateTime) : Nat :=
  ((((dt.year * 13 + dt.month) * 32 + dt.day) * 24 + dt.hour) * 60 + dt.minute) * 60000 +
    dt.second * 1000 + dt.millisecond

/-- JavaScript Math.max on two numbers, as an executable rational function. -/
def ratMax (a b : ℚ) : ℚ := if a ≤ b then b else a

theorem ratMax_eq_max (a b : ℚ) : ratMax a b = max a b := by
  rw [ratMax, max_def]

/-- JavaScript Math.round: round half toward positive infinity, that is
floor (x + 1/2), computed on the numerator and denominator so that the
definition evaluates by kernel reduction: x + 1/2 = (2 num + den) / (2 den)
and the floor of a fraction with positive denominator is its floor
division. -/
def jsRound (x : ℚ) : ℤ := (2 * x.num + x.den).fdiv (2 * x.den)

theorem jsRound_eq_floor (x : ℚ) : jsRound x = ⌊x + 1/2⌋ := by
  rw [jsRound]
  have hdnz : x.den ≠ 0 := x.den_nz
  have hx : (x.num : ℚ) / (x.den : ℚ) = x := Rat.num_div_den x
  revert hdnz hx
  generalize x.num = n
  generalize x.den = d
  intro hdnz hx
  rw [← hx]
  have hdq : (d : ℚ) ≠ 0 := Nat.cast_ne_zero.mpr hdnz
  have heq : (n : ℚ) / (d : ℚ) + 1/2 = ((2 * n + (d : ℤ) : ℤ) : ℚ) / ((2 * d : ℕ) : ℚ) := by
    push_cast
    field_simp
    ring
  rw [heq, Rat.floor_intCast_div_natCast, Int.fdiv_eq_ediv _ (by positivity)]
  push_cast
  ring_nf

/-- Deal record as returned by getDealsForGame (utils/logger.ts lines 190-216):
storeID, dealID, salePrice, normalPrice, savings.  The price strings of the
provider are modelled directly as rationals (parseFloat is the identity in the
embedding). -/
structure GameDeal where
  storeID : String
  dealID : String
  salePrice : ℚ
  normalPrice : ℚ
  savings : ℚ
deriving DecidableEq, Repr

/-- WishlistItem (AuthContext.tsx lines 308-318). -/
structure WishlistItem where
  id : String
  gameID : String
  gameTitle : String
  steamAppID : Option String
  thumb : String
  targetPrice : Option ℚ
  currentBestPrice : ℚ
  addedAt : DateTime
  lastChecked : DateTime
deriving DecidableEq, Repr

/-- PriceCheckResult (part_007 lines 30-41). -/
structure PriceCheckResult where
  gameID : String
  gameTitle : String
  currentBestPrice : ℚ
  currentBestStore : String
  targetPrice : Option ℚ
  isAtTarget : Bool
  savings : ℚ
  dealUrl : String
  originalPrice : ℚ
  discount : ℤ
deriving DecidableEq, Repr

/-- STORE_NAMES table (part_007 lines 7-28). -/
def STORE_NAMES : List (String × String) :=
  [("1", "Steam"), ("2", "GamersGate"), ("3", "GreenManGaming"), ("7", "GOG"),
   ("8", "Origin"), ("11", "Humble Bundle"), ("13", "Uplay"), ("15", "Fanatical"),
   ("21", "WinGameStore"), ("23", "GameBillet"), ("24", "Voidu"),
   ("25", "Epic Games Store"), ("27", "Gamesplanet"), ("28", "Gamesload"),
   ("29", "2Game"), ("30", "IndieGala"), ("31", "Blizzard Shop"),
   ("33", "DLGamer"), ("34", "Noctre"), ("35", "DreamGame")]

/-- Store-name lookup with fallback, part_007 line 62:
STORE_NAMES[bestDeal.storeID] or else the literal Store-prefixed id. -/
def storeNameOf (storeID : String) : String :=
  match (STORE_NAMES.lookup storeID) with
  | some n => n
  | none => "Store " ++ storeID

/-- One step of the best-deal reduction (part_007 lines 53-57): keep the
incumbent unless the candidate has a strictly lower sale price. -/
def betterDeal (best deal : GameDeal) : GameDeal :=
  if deal.salePrice < best.salePrice then deal else best

/-- checkGamePrice (part_007 lines 44-84).  The network call getDealsForGame is
a function parameter; a thrown error (caught by the try block) is the error
case, and a null or empty deal list yields no result. -/
def checkGamePrice (fetch : String → Except String (List GameDeal))
    (item : WishlistItem) : Option PriceCheckResult :=
  match fetch item.gameID with
  | .error _ => none
  | .ok [] => none
  | .ok (d0 :: rest) =>
    let bestDeal := (d0 :: rest).foldl betterDeal d0
    let currentPrice := bestDeal.salePrice
    let originalPrice := bestDeal.normalPrice
    let discount := jsRound bestDeal.savings
    let storeName := storeNameOf bestDeal.storeID
    let dealUrl := "https://www.cheapshark.com/redirect?dealID=" ++ bestDeal.dealID
    let isAtTarget :=
      match item.targetPrice with
      | some t => decide (currentPrice ≤ t)
      | none => false
    let savings :=
      match item.targetPrice with
      | some t => t - currentPrice
      | none => 0
    some { gameID := item.gameID
           gameTitle := item.gameTitle
           currentBestPrice := currentPrice
           currentBestStore := storeName
           targetPrice := item.targetPrice
           isAtTarget := isAtTarget
           savings := ratMax 0 savings
           dealUrl := dealUrl
           originalPrice := originalPrice
           discount := discount }

/-- checkAllPrices loop (part_007 lines 87-109) together with the trace of the
gameIDs fetched, in order; the progress callback and the pacing delay carry no
data and are omitted. -/
def checkAllPricesAux (fetch : String → Except String (List GameDeal)) :
    List WishlistItem → List PriceCheckResult × List String
  | [] => ([], [])
  | item :: rest =>
    let res := checkGamePrice fetch item
    let acc := checkAllPricesAux fetch rest
    (match res with
     | some r => r :: acc.1
     | none => acc.1,
     item.gameID :: acc.2)

/-- checkAllPrices (part_007 lines 87-109): the results accumulated by the
sequential loop, skipping items for which checkGamePrice returned null. -/
def checkAllPrices (fetch : String → Except String (List GameDeal))
    (wishlist : List WishlistItem) : List PriceCheckResult :=
  (checkAllPricesAux fetch wishlist).1

/-- updateTargetPrice, demo-mode branch (part_001 lines 176-187): map over the
items, merging the new target price into the matching item only. -/
def updateTargetPrice (items : List WishlistItem) (gameID : String)
    (targetPrice : Option ℚ) : List WishlistItem :=
  items.map (fun item =>
    if item.gameID = gameID then { item with targetPrice := targetPrice } else item)

theorem checkGamePrice_eq_some (fetch : String → Except String (List GameDeal))
    (item : WishlistItem) (r : PriceCheckResult)
    (h : checkGamePrice fetch item = some r) :
    ∃ d0 rest, fetch item.gameID = .ok (d0 :: rest) ∧
      r = { gameID := item.gameID
            gameTitle := item.gameTitle
            currentBestPrice := ((d0 :: rest).foldl betterDeal d0).salePrice
            currentBestStore := storeNameOf ((d0 :: rest).foldl betterDeal d0).storeID
            targetPrice := item.targetPrice
            isAtTarget := match item.targetPrice with
              | some t => decide (((d0 :: rest).foldl betterDeal d0).salePrice ≤ t)
              | none => false
            savings := ratMax 0 (match item.targetPrice with
              | some t => t - ((d0 :: rest).foldl betterDeal d0).salePrice
              | none => 0)
            dealUrl := "https://www.cheapshark.com/redirect?dealID=" ++
              ((d0 :: rest).foldl betterDeal d0).dealID
            originalPrice := ((d0 :: rest).foldl betterDeal d0).normalPrice
            discount := jsRound ((d0 :: rest).foldl betterDeal d0).savings } := by
  unfold checkGamePrice at h
  cases hf : fetch item.gameID with
  | error e => rw [hf] at h; exact absurd h (by simp)
  | ok deals =>
    cases deals with
    | nil => rw [hf] at h; exact absurd h (by simp)
    | cons d0 rest =>
      rw [hf] at h
      simp only [Option.some.injEq] at h
      exact ⟨d0, rest, rfl, h.symm⟩

/-- C1: for every wishlist item for which the provider returns at least one
deal, the produced PriceCheckResult satisfies: the copied target price equals
the target of the item; isAtTarget holds exactly when a target price is set and
the current best price is at most that target; savings equals
max 0 (targetPrice - currentBestPrice) when a target is set and is zero when no
target is set; and in particular, after updateTargetPrice with a null target,
reconciling the updated item yields isAtTarget false and savings zero
regardless of the current price. -/
theorem checkGamePrice_target_semantics :
    (∀ (fetch : String → Except String (List GameDeal)) (item : WishlistItem)
        (r : PriceCheckResult), checkGamePrice fetch item = some r →
      r.targetPrice = item.targetPrice ∧
      (r.isAtTarget = true ↔ ∃ t, item.targetPrice = some t ∧ r.currentBestPrice ≤ t) ∧
      (∀ t, item.targetPrice = some t → r.savings = max 0 (t - r.currentBestPrice)) ∧
      (item.targetPrice = none → r.isAtTarget = false ∧ r.savings = 0)) ∧
    (∀ (fetch : String → Except String (List GameDeal)) (items : List WishlistItem)
        (g : String) (i : WishlistItem) (r : PriceCheckResult),
      i ∈ updateTargetPrice items g none → i.gameID = g →
      checkGamePrice fetch i = some r →
      r.isAtTarget = false ∧ r.savings = 0) := by
  have main : ∀ (fetch : String → Except String (List GameDeal)) (item : WishlistItem)
      (r : PriceCheckResult), checkGamePrice fetch item = some r →
      r.targetPrice = item.targetPrice ∧
      (r.isAtTarget = true ↔ ∃ t, item.targetPrice = some t ∧ r.currentBestPrice ≤ t) ∧
      (∀ t, item.targetPrice = some t → r.savings = max 0 (t - r.currentBestPrice)) ∧
      (item.targetPrice = none → r.isAtTarget = false ∧ r.savings = 0) := by
    intro fetch item r h
    obtain ⟨d0, rest, _, hr⟩ := checkGamePrice_eq_some fetch item r h
    subst hr
    cases htp : item.targetPrice with
    | none =>
      refine ⟨rfl, by simp, ?_, ?_⟩
      · intro t ht; simp at ht
      · intro _
        exact ⟨rfl, by simp [ratMax]⟩
    | some t =>
      refine ⟨rfl, by simp, ?_, ?_⟩
      · intro t' ht'
        injection ht' with ht''
        subst ht''
        simp [ratMax_eq_max]
      · intro hn; simp at hn
  refine ⟨main, ?_⟩
  intro fetch items g i r hmem hgid hchk
  have htp : i.targetPrice = none := by
    unfold updateTargetPrice at hmem
    obtain ⟨j, _, hj⟩ := List.mem_map.mp hmem
    by_cases hjg : j.gameID = g
    · rw [if_pos hjg] at hj; rw [← hj]
    · rw [if_neg hjg] at hj; rw [← hj] at hgid; exact absurd hgid hjg
  exact (main fetch i r hchk).2.2.2 htp

/-- Concrete fetch environment used by witnesses: game gA fails with a thrown
error, gB has one deal at price 10, gC one deal at price 20, gT a three-deal
list with a tie at the minimum price. -/
def fetchW (g : String) : Except String (List GameDeal) :=
  if g = "gA" then .error "network error"
  else if g = "gB" then .ok [{ storeID := "1", dealID := "dB", salePrice := 10, normalPrice := 20, savings := 50 }]
  else if g = "gC" then .ok [{ storeID := "7", dealID := "dC", salePrice := 20, normalPrice := 20, savings := 0 }]
  else if g = "gT" then .ok
    [{ storeID := "1", dealID := "dT1", salePrice := 10, normalPrice := 20, savings := 50 },
     { storeID := "2", dealID := "dT2", salePrice := 10, normalPrice := 30, savings := 66 },
     { storeID := "3", dealID := "dT3", salePrice := 12, normalPrice := 24, savings := 50 }]
  else .ok []

/-- Sample timestamp used by witnesses. -/
def dtW : DateTime := ⟨2024, 5, 17, 12, 30, 45, 123⟩

/-- Later sample timestamp used by witnesses. -/
def dtW2 : DateTime := ⟨2024, 5, 18, 9, 0, 0, 0⟩

/-- Wishlist item tracking game gB with target price 15. -/
def itemB : WishlistItem :=
  { id := "gB", gameID := "gB", gameTitle := "Game B", steamAppID := none,
    thumb := "", targetPrice := some 15, currentBestPrice := 12,
    addedAt := dtW, lastChecked := dtW }

/-- Wishlist item tracking game gC with no target price. -/
def itemC : WishlistItem :=
  { id := "gC", gameID := "gC", gameTitle := "Game C", steamAppID := none,
    thumb := "", targetPrice := none, currentBestPrice := 20,
    addedAt := dtW, lastChecked := dtW }

/-- Wishlist item tracking game gA (whose fetch fails). -/
def itemA : WishlistItem :=
  { id := "gA", gameID := "gA", gameTitle := "Game A", steamAppID := none,
    thumb := "", targetPrice := some 5, currentBestPrice := 7,
    addedAt := dtW, lastChecked := dtW }

/-- The item of itemB after updateTargetPrice with a null target. -/
def itemBCleared : WishlistItem := { itemB with targetPrice := none }

set_option maxRecDepth 100000 in
theorem checkGamePrice_target_semantics_witness :
    checkGamePrice fetchW itemBCleared =
      some { gameID := "gB", gameTitle := "Game B", currentBestPrice := 10,
             currentBestStore := "Steam", targetPrice := none, isAtTarget := false,
             savings := 0, dealUrl := "https://www.cheapshark.com/redirect?dealID=dB",
             originalPrice := 20, discount := 50 } ∧
    ({ gameID := "gB", gameTitle := "Game B", currentBestPrice := 10,
       currentBestStore := "Steam", targetPrice := none, isAtTarget := false,
       savings := 0, dealUrl := "https://www.cheapshark.com/redirect?dealID=dB",
       originalPrice := 20, discount := 50 } : PriceCheckResult).isAtTarget = false ∧
    ({ gameID := "gB", gameTitle := "Game B", currentBestPrice := 10,
       currentBestStore := "Steam", targetPrice := none, isAtTarget := false,
       savings := 0, dealUrl := "https://www.cheapshark.com/redirect?dealID=dB",
       originalPrice := 20, discount := 50 } : PriceCheckResult).savings = 0 := by
  refine ⟨by with_unfolding_all decide, ?_⟩
  exact checkGamePrice_target_semantics.2 fetchW [itemB] "gB" itemBCleared _
    (by with_unfolding_all decide) (by with_unfolding_all decide)
    (by with_unfolding_all decide)

theorem foldl_betterDeal_spec (l : List GameDeal) (acc : GameDeal) :
    (l.foldl betterDeal acc = acc ∧ ∀ d ∈ l, acc.salePrice ≤ d.salePrice) ∨
    (∃ l1 l2, l = l1 ++ (l.foldl betterDeal acc) :: l2 ∧
      (l.foldl betterDeal acc).salePrice < acc.salePrice ∧
      (∀ d ∈ l1, (l.foldl betterDeal acc).salePrice < d.salePrice) ∧
      (∀ d ∈ l2, (l.foldl betterDeal acc).salePrice ≤ d.salePrice)) := by
  induction l generalizing acc with
  | nil => exact Or.inl ⟨rfl, by simp⟩
  | cons x xs ih =>
    by_cases hx : x.salePrice < acc.salePrice
    · have hstep : (x :: xs).foldl betterDeal acc = xs.foldl betterDeal x := by
        simp [List.foldl_cons, betterDeal, hx]
      rcases ih x with ⟨heq, hall⟩ | ⟨l1, l2, hsplit, hlt, hl1, hl2⟩
      · refine Or.inr ⟨[], xs, ?_, ?_, by simp, ?_⟩
        · rw [hstep, heq]; simp
        · rw [hstep, heq]; exact hx
        · rw [hstep, heq]; exact hall
      · refine Or.inr ⟨x :: l1, l2, ?_, ?_, ?_, ?_⟩
        · rw [hstep]; rw [List.cons_append]; rw [← hsplit]
        · rw [hstep]; exact lt_trans hlt hx
        · rw [hstep]
          intro d hd
          rcases List.mem_cons.mp hd with rfl | hd'
          · exact hlt
          · exact hl1 d hd'
        · rw [hstep]; exact hl2
    · have hstep : (x :: xs).foldl betterDeal acc = xs.foldl betterDeal acc := by
        simp [List.foldl_cons, betterDeal, hx]
      rcases ih acc with ⟨heq, hall⟩ | ⟨l1, l2, hsplit, hlt, hl1, hl2⟩
      · refine Or.inl ⟨by rw [hstep, heq], ?_⟩
        intro d hd
        rcases List.mem_cons.mp hd with rfl | hd'
        · exact le_of_not_lt hx
        · exact hall d hd'
      · refine Or.inr ⟨x :: l1, l2, ?_, ?_, ?_, ?_⟩
        · rw [hstep, List.cons_append, ← hsplit]
        · rw [hstep]; exact hlt
        · rw [hstep]
          intro d hd
          rcases List.mem_cons.mp hd with rfl | hd'
          · exact lt_of_lt_of_le hlt (le_of_not_lt hx)
          · exact hl1 d hd'
        · rw [hstep]; exact hl2

theorem bestDeal_first_min (d0 : GameDeal) (rest : List GameDeal) :
    ∃ l1 l2, d0 :: rest = l1 ++ ((d0 :: rest).foldl betterDeal d0) :: l2 ∧
      (∀ d ∈ l1, ((d0 :: rest).foldl betterDeal d0).salePrice < d.salePrice) ∧
      (∀ d ∈ d0 :: rest, ((d0 :: rest).foldl betterDeal d0).salePrice ≤ d.salePrice) := by
  have hstep : (d0 :: rest).foldl betterDeal d0 = rest.foldl betterDeal d0 := by
    simp [List.foldl_cons, betterDeal]
  rw [hstep]
  rcases foldl_betterDeal_spec rest d0 with ⟨heq, hall⟩ | ⟨l1, l2, hsplit, hlt, hl1, hl2⟩
  · refine ⟨[], rest, by rw [heq]; simp, by simp, ?_⟩
    intro d hd
    rcases List.mem_cons.mp hd with rfl | hd'
    · rw [heq]
    · rw [heq]; exact hall d hd'
  · refine ⟨d0 :: l1, l2, ?_, ?_, ?_⟩
    · rw [List.cons_append, ← hsplit]
    · intro d hd
      rcases List.mem_cons.mp hd with rfl | hd'
      · exact hlt
      · exact hl1 d hd'
    · intro d hd
      rcases List.mem_cons.mp hd with rfl | hd'
      · exact le_of_lt hlt
      · rw [hsplit] at hd'
        rcases List.mem_append.mp hd' with h1 | h2
        · exact le_of_lt (hl1 d h1)
        · rcases List.mem_cons.mp h2 with rfl | h2'
          · exact le_refl _
          · exact hl2 d h2'

/-- C3: for every non-empty deal list returned by the provider, checkGamePrice
selects a deal of minimum salePrice, breaking ties in favour of the first one
in provider order (every deal strictly before the selected one is strictly
more expensive, every deal is at least as expensive), and the result fields
currentBestPrice, currentBestStore, originalPrice, discount and dealUrl are
all taken from that selected deal. -/
theorem checkGamePrice_best_selection
    (fetch : String → Except String (List GameDeal)) (item : WishlistItem)
    (deals : List GameDeal) (r : PriceCheckResult)
    (hf : fetch item.gameID = .ok deals)
    (h : checkGamePrice fetch item = some r) :
    ∃ l1 b l2, deals = l1 ++ b :: l2 ∧
      (∀ d ∈ l1, b.salePrice < d.salePrice) ∧
      (∀ d ∈ deals, b.salePrice ≤ d.salePrice) ∧
      r.currentBestPrice = b.salePrice ∧
      r.currentBestStore = storeNameOf b.storeID ∧
      r.originalPrice = b.normalPrice ∧
      r.discount = jsRound b.savings ∧
      r.dealUrl = "https://www.cheapshark.com/redirect?dealID=" ++ b.dealID := by
  obtain ⟨d0, rest, hf', hr⟩ := checkGamePrice_eq_some fetch item r h
  rw [hf] at hf'
  have hdeals : deals = d0 :: rest := by
    injection hf'
  subst hdeals
  obtain ⟨l1, l2, hsplit, hl1, hall⟩ := bestDeal_first_min d0 rest
  refine ⟨l1, (d0 :: rest).foldl betterDeal d0, l2, hsplit, hl1, hall, ?_, ?_, ?_, ?_, ?_⟩ <;>
    rw [hr]

/-- The deal list served for game gT: a tie at the minimum price 10 between
the first two deals. -/
def dealsT : List GameDeal :=
  [{ storeID := "1", dealID := "dT1", salePrice := 10, normalPrice := 20, savings := 50 },
   { storeID := "2", dealID := "dT2", salePrice := 10, normalPrice := 30, savings := 66 },
   { storeID := "3", dealID := "dT3", salePrice := 12, normalPrice := 24, savings := 50 }]

/-- Wishlist item tracking game gT. -/
def itemT : WishlistItem :=
  { id := "gT", gameID := "gT", gameTitle := "Game T", steamAppID := none,
    thumb := "", targetPrice := none, currentBestPrice := 10,
    addedAt := dtW, lastChecked := dtW }

/-- Expected reconciliation result for game gT: the first of the two tied
cheapest deals is chosen. -/
def resT : PriceCheckResult :=
  { gameID := "gT", gameTitle := "Game T", currentBestPrice := 10,
    currentBestStore := "Steam", targetPrice := none, isAtTarget := false,
    savings := 0, dealUrl := "https://www.cheapshark.com/redirect?dealID=dT1",
    originalPrice := 20, discount := 50 }

set_option maxRecDepth 100000 in
theorem checkGamePrice_best_selection_witness :
    ∃ l1 b l2, dealsT = l1 ++ b :: l2 ∧
      (∀ d ∈ l1, b.salePrice < d.salePrice) ∧
      (∀ d ∈ dealsT, b.salePrice ≤ d.salePrice) ∧
      resT.currentBestPrice = b.salePrice ∧
      resT.currentBestStore = storeNameOf b.storeID ∧
      resT.originalPrice = b.normalPrice ∧
      resT.discount = jsRound b.savings ∧
      resT.dealUrl = "https://www.cheapshark.com/redirect?dealID=" ++ b.dealID :=
  checkGamePrice_best_selection fetchW itemT dealsT resT
    (by with_unfolding_all rfl) (by with_unfolding_all decide)

theorem checkAllPrices_cons_some (fetch : String → Except String (List GameDeal))
    (item : WishlistItem) (rest : List WishlistItem) (r : PriceCheckResult)
    (h : checkGamePrice fetch item = some r) :
    checkAllPrices fetch (item :: rest) = r :: checkAllPrices fetch rest := by
  simp [checkAllPrices, checkAllPricesAux, h]

theorem checkAllPrices_cons_none (fetch : String → Except String (List GameDeal))
    (item : WishlistItem) (rest : List WishlistItem)
    (h : checkGamePrice fetch item = none) :
    checkAllPrices fetch (item :: rest) = checkAllPrices fetch rest := by
  simp [checkAllPrices, checkAllPricesAux, h]

theorem checkAllPrices_append (fetch : String → Except String (List GameDeal))
    (l1 l2 : List WishlistItem) :
    checkAllPrices fetch (l1 ++ l2) =
      checkAllPrices fetch l1 ++ checkAllPrices fetch l2 := by
  induction l1 with
  | nil => rfl
  | cons x xs ih =>
    cases hx : checkGamePrice fetch x with
    | none =>
      rw [List.cons_append, checkAllPrices_cons_none fetch x _ hx,
        checkAllPrices_cons_none fetch x _ hx, ih]
    | some r =>
      rw [List.cons_append, checkAllPrices_cons_some fetch x _ r hx,
        checkAllPrices_cons_some fetch x _ r hx, ih, List.cons_append]

/-- C2: a failing or zero-deal item is skipped without aborting the batch:
removing it from the input leaves the output unchanged, every successfully
fetched item of the batch still contributes its result, and the fetch trace
shows exactly one fetch per input item, in order (no retries). -/
theorem checkAllPrices_partial_failure_isolation
    (fetch : String → Except String (List GameDeal)) :
    (∀ xs (a : WishlistItem) ys, checkGamePrice fetch a = none →
      checkAllPrices fetch (xs ++ a :: ys) =
        checkAllPrices fetch xs ++ checkAllPrices fetch ys) ∧
    (∀ (l : List WishlistItem) (b : WishlistItem) (r : PriceCheckResult),
      b ∈ l → checkGamePrice fetch b = some r → r ∈ checkAllPrices fetch l) ∧
    (∀ l : List WishlistItem,
      (checkAllPricesAux fetch l).2 = l.map (fun i => i.gameID)) := by
  refine ⟨?_, ?_, ?_⟩
  · intro xs a ys ha
    rw [checkAllPrices_append, checkAllPrices_cons_none fetch a ys ha]
  · intro l b r hb hr
    induction l with
    | nil => exact absurd hb (by simp)
    | cons x xs ih =>
      rcases List.mem_cons.mp hb with rfl | hb'
      · rw [checkAllPrices_cons_some fetch b xs r hr]
        exact List.mem_cons_self r _
      · cases hx : checkGamePrice fetch x with
        | none => rw [checkAllPrices_cons_none fetch x xs hx]; exact ih hb'
        | some q =>
          rw [checkAllPrices_cons_some fetch x xs q hx]
          exact List.mem_cons_of_mem q (ih hb')
  · intro l
    induction l with
    | nil => rfl
    | cons x xs ih => simp [checkAllPricesAux, ih]

/-- Expected reconciliation result for game gB (price 10, target 15). -/
def resB : PriceCheckResult :=
  { gameID := "gB", gameTitle := "Game B", currentBestPrice := 10,
    currentBestStore := "Steam", targetPrice := some 15, isAtTarget := true,
    savings := 5, dealUrl := "https://www.cheapshark.com/redirect?dealID=dB",
    originalPrice := 20, discount := 50 }

/-- Expected reconciliation result for game gC (price 20, no target). -/
def resC : PriceCheckResult :=
  { gameID := "gC", gameTitle := "Game C", currentBestPrice := 20,
    currentBestStore := "GOG", targetPrice := none, isAtTarget := false,
    savings := 0, dealUrl := "https://www.cheapshark.com/redirect?dealID=dC",
    originalPrice := 20, discount := 0 }

set_option maxRecDepth 1000000 in
theorem checkAllPrices_partial_failure_isolation_witness :
    checkGamePrice fetchW itemA = none ∧
    checkAllPrices fetchW ([] ++ itemA :: [itemB, itemC]) =
      checkAllPrices fetchW [] ++ checkAllPrices fetchW [itemB, itemC] ∧
    resB ∈ checkAllPrices fetchW [itemA, itemB, itemC] ∧
    (checkAllPricesAux fetchW [itemA, itemB, itemC]).2 = ["gA", "gB", "gC"] ∧
    checkAllPrices fetchW [itemA, itemB, itemC] = [resB, resC] := by
  refine ⟨by with_unfolding_all decide, ?_, ?_, ?_, by with_unfolding_all decide⟩
  · exact (checkAllPrices_partial_failure_isolation fetchW).1 [] itemA [itemB, itemC]
      (by with_unfolding_all decide)
  · exact (checkAllPrices_partial_failure_isolation fetchW).2.1 [itemA, itemB, itemC]
      itemB resB (by with_unfolding_all decide) (by with_unfolding_all decide)
  · exact ((checkAllPrices_partial_failure_isolation fetchW).2.2
      [itemA, itemB, itemC]).trans (by with_unfolding_all decide)

/-- One game entry of a DealReport (email.ts lines 26-37, built in part_007
lines 136-143). -/
structure ReportGame where
  title : String
  currentPrice : ℚ
  originalPrice : ℚ
  discount : ℤ
  store : String
  dealUrl : String
deriving DecidableEq, Repr

/-- DealReport (email.ts lines 26-37). -/
structure DealReport where
  games : List ReportGame
  totalSavings : ℚ
  generatedAt : DateTime
deriving DecidableEq, Repr

/-- Projection of a PriceCheckResult to a report entry (part_007 lines
136-143). -/
def toReportGame (g : PriceCheckResult) : ReportGame :=
  { title := g.gameTitle, currentPrice := g.currentBestPrice,
    originalPrice := g.originalPrice, discount := g.discount,
    store := g.currentBestStore, dealUrl := g.dealUrl }

/-- Insertion into a list sorted by descending discount: the element is placed
before the first entry whose discount is not larger, so equal discounts keep
the relative order of insertion. -/
def insertByDiscountDesc (x : PriceCheckResult) :
    List PriceCheckResult → List PriceCheckResult
  | [] => [x]
  | y :: ys =>
    if y.discount ≤ x.discount then x :: y :: ys else y :: insertByDiscountDesc x ys

/-- Stable descending sort by discount, the behaviour of the ECMAScript
stable Array.sort with comparator b.discount - a.discount (part_007 line
128). -/
def sortByDiscountDesc : List PriceCheckResult → List PriceCheckResult
  | [] => []
  | x :: xs => insertByDiscountDesc x (sortByDiscountDesc xs)

/-- generateDealReport (part_007 lines 125-147): filter to positive discounts,
sort by discount descending, sum originalPrice - currentBestPrice.  The
generation timestamp new Date() is a parameter. -/
def generateDealReport (now : DateTime) (results : List PriceCheckResult) :
    DealReport :=
  let gamesWithDeals := sortByDiscountDesc (results.filter (fun r => 0 < r.discount))
  { games := gamesWithDeals.map toReportGame
    totalSavings :=
      gamesWithDeals.foldl (fun sum game => sum + (game.originalPrice - game.currentBestPrice)) 0
    generatedAt := now }

theorem insertByDiscountDesc_perm (x : PriceCheckResult) (l : List PriceCheckResult) :
    List.Perm (insertByDiscountDesc x l) (x :: l) := by
  induction l with
  | nil => simp [insertByDiscountDesc]
  | cons y ys ih =>
    rw [insertByDiscountDesc]
    by_cases h : y.discount ≤ x.discount
    · rw [if_pos h]
    · rw [if_neg h]
      exact ((ih.cons y).trans (List.Perm.swap x y ys))

theorem sortByDiscountDesc_perm (l : List PriceCheckResult) :
    List.Perm (sortByDiscountDesc l) l := by
  induction l with
  | nil => simp [sortByDiscountDesc]
  | cons x xs ih =>
    rw [sortByDiscountDesc]
    exact (insertByDiscountDesc_perm x (sortByDiscountDesc xs)).trans (ih.cons x)

theorem insertByDiscountDesc_pairwise (x : PriceCheckResult)
    (l : List PriceCheckResult)
    (hl : l.Pairwise (fun a b => b.discount ≤ a.discount)) :
    (insertByDiscountDesc x l).Pairwise (fun a b => b.discount ≤ a.discount) := by
  induction l with
  | nil => simp [insertByDiscountDesc]
  | cons y ys ih =>
    rw [insertByDiscountDesc]
    rcases List.pairwise_cons.mp hl with ⟨hy, hys⟩
    by_cases h : y.discount ≤ x.discount
    · rw [if_pos h]
      refine List.pairwise_cons.mpr ⟨?_, hl⟩
      intro b hb
      rcases List.mem_cons.mp hb with rfl | hb'
      · exact h
      · exact le_trans (hy b hb') h
    · rw [if_neg h]
      refine List.pairwise_cons.mpr ⟨?_, ih hys⟩
      intro b hb
      have hperm := insertByDiscountDesc_perm x ys
      rcases List.mem_cons.mp ((hperm.mem_iff).mp hb) with rfl | hb'
      · exact le_of_not_le h
      · exact hy b hb'

theorem sortByDiscountDesc_pairwise (l : List PriceCheckResult) :
    (sortByDiscountDesc l).Pairwise (fun a b => b.discount ≤ a.discount) := by
  induction l with
  | nil => simp [sortByDiscountDesc]
  | cons x xs ih =>
    rw [sortByDiscountDesc]
    exact insertByDiscountDesc_pairwise x _ ih

theorem insertByDiscountDesc_filter_key (x : PriceCheckResult)
    (l : List PriceCheckResult) (d : ℤ) :
    (insertByDiscountDesc x l).filter (fun g => g.discount = d) =
      if x.discount = d then x :: l.filter (fun g => g.discount = d)
      else l.filter (fun g => g.discount = d) := by
  induction l with
  | nil =>
    by_cases hx : x.discount = d
    · simp [insertByDiscountDesc, List.filter, hx]
    · simp [insertByDiscountDesc, List.filter, hx]
  | cons y ys ih =>
    rw [insertByDiscountDesc]
    by_cases h : y.discount ≤ x.discount
    · rw [if_pos h]
      by_cases hx : x.discount = d
      · rw [if_pos hx, List.filter_cons_of_pos (by simp [hx])]
      · rw [if_neg hx, List.filter_cons_of_neg (by simp [hx])]
    · rw [if_neg h]
      by_cases hx : x.discount = d
      · have hy : ¬ (y.discount = d) := by
          intro hyd
          exact h (le_of_eq (hyd.trans hx.symm))
        rw [if_pos hx, List.filter_cons_of_neg (by simp [hy]),
          List.filter_cons_of_neg (by simp [hy]), ih, if_pos hx]
      · rw [if_neg hx, List.filter_cons, List.filter_cons, ih, if_neg hx]

theorem sortByDiscountDesc_filter_key (l : List PriceCheckResult) (d : ℤ) :
    (sortByDiscountDesc l).filter (fun g => g.discount = d) =
      l.filter (fun g => g.discount = d) := by
  induction l with
  | nil => rfl
  | cons x xs ih =>
    rw [sortByDiscountDesc, insertByDiscountDesc_filter_key]
    by_cases hx : x.discount = d
    · rw [if_pos hx, List.filter_cons_of_pos (by simp [hx]), ih]
    · rw [if_neg hx, List.filter_cons_of_neg (by simp [hx]), ih]

theorem foldl_savings_sum (l : List PriceCheckResult) (a : ℚ) :
    l.foldl (fun sum game => sum + (game.originalPrice - game.currentBestPrice)) a =
      a + (l.map (fun game => game.originalPrice - game.currentBestPrice)).sum := by
  induction l generalizing a with
  | nil => simp
  | cons x xs ih =>
    rw [List.foldl_cons, ih, List.map_cons, List.sum_cons]
    ring

/-- C4: generateDealReport returns exactly the input results with strictly
positive discount (as report entries), sorted by descending discount with
stability (for every discount value, the entries with that discount appear in
their input order), and totalSavings is the sum of originalPrice minus
currentBestPrice over exactly that filtered set. -/
theorem generateDealReport_spec (now : DateTime) (results : List PriceCheckResult) :
    (generateDealReport now results).games.Pairwise
      (fun a b => b.discount ≤ a.discount) ∧
    List.Perm (generateDealReport now results).games
      ((results.filter (fun r => 0 < r.discount)).map toReportGame) ∧
    (∀ d : ℤ, (generateDealReport now results).games.filter (fun g => g.discount = d) =
      (((results.filter (fun r => 0 < r.discount)).filter
        (fun r => r.discount = d)).map toReportGame)) ∧
    (generateDealReport now results).totalSavings =
      ((results.filter (fun r => 0 < r.discount)).map
        (fun r => r.originalPrice - r.currentBestPrice)).sum := by
  have hgames : (generateDealReport now results).games =
      (sortByDiscountDesc (results.filter (fun r => 0 < r.discount))).map toReportGame := rfl
  refine ⟨?_, ?_, ?_, ?_⟩
  · rw [hgames]
    exact List.pairwise_map.mpr
      (sortByDiscountDesc_pairwise (results.filter (fun r => 0 < r.discount)))
  · rw [hgames]
    exact (sortByDiscountDesc_perm (results.filter (fun r => 0 < r.discount))).map toReportGame
  · intro d
    rw [hgames, List.filter_map]
    have hcomp : ((fun g : ReportGame => decide (g.discount = d)) ∘ toReportGame) =
        (fun r : PriceCheckResult => decide (r.discount = d)) := rfl
    rw [hcomp, sortByDiscountDesc_filter_key]
  · have htot : (generateDealReport now results).totalSavings =
        (sortByDiscountDesc (results.filter (fun r => 0 < r.discount))).foldl
          (fun sum game => sum + (game.originalPrice - game.currentBestPrice)) 0 := rfl
    rw [htot, foldl_savings_sum, zero_add]
    exact List.Perm.sum_eq
      ((sortByDiscountDesc_perm (results.filter (fun r => 0 < r.discount))).map
        (fun game => game.originalPrice - game.currentBestPrice))

/-- Argument of addToWishlist (part_001 line 120): a WishlistItem without id,
addedAt, lastChecked. -/
structure PendingItem where
  gameID : String
  gameTitle : String
  steamAppID : Option String
  thumb : String
  targetPrice : Option ℚ
  currentBestPrice : ℚ
deriving DecidableEq, Repr

/-- The new item built by addToWishlist (part_001 lines 123-129): id is the
gameID, both timestamps are the current time. -/
def mkWishlistItem (p : PendingItem) (now : DateTime) : WishlistItem :=
  { id := p.gameID, gameID := p.gameID, gameTitle := p.gameTitle,
    steamAppID := p.steamAppID, thumb := p.thumb, targetPrice := p.targetPrice,
    currentBestPrice := p.currentBestPrice, addedAt := now, lastChecked := now }

/-- addToWishlist, demo-mode branch (part_001 lines 132-136): drop any item
with the same gameID, append the freshly stamped new item. -/
def addToWishlist (items : List WishlistItem) (p : PendingItem) (now : DateTime) :
    List WishlistItem :=
  (items.filter (fun i => i.gameID ≠ p.gameID)) ++ [mkWishlistItem p now]

/-- removeFromWishlist, demo-mode branch (part_001 lines 158-162). -/
def removeFromWishlist (items : List WishlistItem) (gameID : String) :
    List WishlistItem :=
  items.filter (fun i => i.gameID ≠ gameID)

/-- A user operation on the wishlist store. -/
inductive WishlistOp where
  | add (p : PendingItem) (now : DateTime)
  | remove (gameID : String)
deriving DecidableEq, Repr

/-- Apply one operation to the store state. -/
def applyOp (items : List WishlistItem) : WishlistOp → List WishlistItem
  | .add p now => addToWishlist items p now
  | .remove x => removeFromWishlist items x

/-- Run a sequence of operations from a given state. -/
def runOps : List WishlistItem → List WishlistOp → List WishlistItem
  | items, [] => items
  | items, op :: ops => runOps (applyOp items op) ops

/-- Whether the presence bit for gameID g ends up set: an add of g sets it, a
remove of g clears it. -/
def effStep (g : String) (b : Bool) : WishlistOp → Bool
  | .add p _ => if p.gameID = g then true else b
  | .remove x => if x = g then false else b

/-- Presence bit after a sequence of operations, from a given initial bit. -/
def effAddedFrom (g : String) : Bool → List WishlistOp → Bool
  | b, [] => b
  | b, op :: ops => effAddedFrom g (effStep g b op) ops

/-- A gameID is effectively added when some add of it is not followed by a
remove of it. -/
def effectivelyAdded (ops : List WishlistOp) (g : String) : Bool :=
  effAddedFrom g false ops

theorem countP_filter_ne (items : List WishlistItem) (g x : String) :
    ((items.filter (fun i => i.gameID ≠ x)).countP (fun i => i.gameID == g)) =
      if x = g then 0 else items.countP (fun i => i.gameID == g) := by
  by_cases hxg : x = g
  · subst hxg
    rw [if_pos rfl, List.countP_eq_zero]
    intro a ha
    have h2 := (List.mem_filter.mp ha).2
    simp only [decide_eq_true_eq] at h2
    simp only [beq_eq_false_iff_ne, ne_eq, Bool.not_eq_true]
    simpa using h2
  · rw [if_neg hxg]
    induction items with
    | nil => rfl
    | cons a l ih =>
      rw [List.filter_cons]
      by_cases hax : a.gameID = x
      · rw [if_neg (by simp [hax])]
        have hag : (a.gameID == g) = false := by
          refine beq_eq_false_iff_ne.mpr ?_
          intro h
          exact hxg (hax ▸ h)
        rw [ih, List.countP_cons, hag]
        simp
      · rw [if_pos (by simp [hax])]
        rw [List.countP_cons, List.countP_cons, ih]

theorem countP_addToWishlist (items : List WishlistItem) (p : PendingItem)
    (now : DateTime) (g : String) :
    (addToWishlist items p now).countP (fun i => i.gameID == g) =
      if p.gameID = g then 1 else items.countP (fun i => i.gameID == g) := by
  rw [addToWishlist, List.countP_append, countP_filter_ne]
  by_cases hpg : p.gameID = g
  · rw [if_pos hpg, if_pos hpg]
    simp [List.countP_cons, mkWishlistItem, hpg]
  · rw [if_neg hpg, if_neg hpg]
    have : ((mkWishlistItem p now).gameID == g) = false := by
      simpa [mkWishlistItem] using hpg
    simp [List.countP_cons, this]

theorem countP_removeFromWishlist (items : List WishlistItem) (x g : String) :
    (removeFromWishlist items x).countP (fun i => i.gameID == g) =
      if x = g then 0 else items.countP (fun i => i.gameID == g) :=
  countP_filter_ne items g x

theorem runOps_countP (ops : List WishlistOp) (items : List WishlistItem)
    (g : String) (h : items.countP (fun i => i.gameID == g) ≤ 1) :
    (runOps items ops).countP (fun i => i.gameID == g) =
      if effAddedFrom g (items.countP (fun i => i.gameID == g) == 1) ops
      then 1 else 0 := by
  induction ops generalizing items with
  | nil =>
    rcases Nat.le_one_iff_eq_zero_or_eq_one.mp h with h0 | h1
    · rw [runOps, effAddedFrom, h0]
      simp
    · rw [runOps, effAddedFrom, h1]
      simp
  | cons op ops ih =>
    cases op with
    | add p now =>
      have hc := countP_addToWishlist items p now g
      have hle : (addToWishlist items p now).countP (fun i => i.gameID == g) ≤ 1 := by
        rw [hc]
        by_cases hpg : p.gameID = g
        · rw [if_pos hpg]
        · rw [if_neg hpg]; exact h
      have hrun : runOps items (.add p now :: ops) = runOps (addToWishlist items p now) ops := rfl
      rw [hrun, ih _ hle, effAddedFrom, hc]
      by_cases hpg : p.gameID = g
      · rw [if_pos hpg]
        simp [effStep, hpg]
      · rw [if_neg hpg]
        simp [effStep, hpg]
    | remove x =>
      have hc := countP_removeFromWishlist items x g
      have hle : (removeFromWishlist items x).countP (fun i => i.gameID == g) ≤ 1 := by
        rw [hc]
        by_cases hxg : x = g
        · rw [if_pos hxg]; omega
        · rw [if_neg hxg]; exact h
      have hrun : runOps items (.remove x :: ops) = runOps (removeFromWishlist items x) ops := rfl
      rw [hrun, ih _ hle, effAddedFrom, hc]
      by_cases hxg : x = g
      · rw [if_pos hxg]
        simp [effStep, hxg]
      · rw [if_neg hxg]
        simp [effStep, hxg]

/-- C5: starting from the empty wishlist, any sequence of add and remove
operations leaves exactly one entry per gameID that was added and not
subsequently removed and none otherwise (so adds replace instead of
duplicating), the resulting gameIDs are pairwise distinct, and removing an
absent gameID is a no-op. -/
theorem wishlist_store_invariant :
    (∀ (ops : List WishlistOp) (g : String),
      (runOps [] ops).countP (fun i => i.gameID == g) =
        (if effectivelyAdded ops g then 1 else 0) ∧
      ((runOps [] ops).map (fun i => i.gameID)).Nodup) ∧
    (∀ (items : List WishlistItem) (g : String),
      items.countP (fun i => i.gameID == g) = 0 →
      removeFromWishlist items g = items) := by
  have hcount : ∀ (ops : List WishlistOp) (g : String),
      (runOps [] ops).countP (fun i => i.gameID == g) =
        (if effectivelyAdded ops g then 1 else 0) := by
    intro ops g
    have := runOps_countP ops [] g (by simp)
    simpa [effectivelyAdded] using this
  refine ⟨fun ops g => ⟨hcount ops g, ?_⟩, ?_⟩
  · rw [List.nodup_iff_count_le_one]
    intro a
    rw [List.count_eq_countP, List.countP_map]
    have h := hcount ops a
    have heq : ((fun x => x == a) ∘ fun i : WishlistItem => i.gameID) =
        (fun i : WishlistItem => i.gameID == a) := rfl
    rw [heq, h]
    by_cases hb : effectivelyAdded ops a
    · rw [if_pos hb]
    · rw [if_neg hb]; omega
  · intro items g h
    rw [removeFromWishlist, List.filter_eq_self]
    intro a ha
    have := List.countP_eq_zero.mp h a ha
    simp only [beq_eq_false_iff_ne, ne_eq, Bool.not_eq_true] at this ⊢
    simpa using this

/-- Pending add payload for game gB used by store witnesses. -/
def pendB : PendingItem :=
  { gameID := "gB", gameTitle := "Game B", steamAppID := none, thumb := "",
    targetPrice := some 15, currentBestPrice := 12 }

/-- Pending add payload for game gC used by store witnesses. -/
def pendC : PendingItem :=
  { gameID := "gC", gameTitle := "Game C", steamAppID := none, thumb := "",
    targetPrice := none, currentBestPrice := 20 }

/-- Operation sequence used by the store witness: add gB, add gC, re-add gB,
remove gC, remove an absent gameID. -/
def opsW : List WishlistOp :=
  [.add pendB dtW, .add pendC dtW, .add pendB dtW2, .remove "gC", .remove "gZ"]

set_option maxRecDepth 1000000 in
theorem wishlist_store_invariant_witness :
    ((runOps [] opsW).countP (fun i => i.gameID == "gB") =
      (if effectivelyAdded opsW "gB" then 1 else 0)) ∧
    ((runOps [] opsW).map (fun i => i.gameID)).Nodup ∧
    removeFromWishlist [mkWishlistItem pendB dtW] "gZ" = [mkWishlistItem pendB dtW] ∧
    effectivelyAdded opsW "gB" = true ∧
    (runOps [] opsW).countP (fun i => i.gameID == "gC") = 0 :=
  ⟨(wishlist_store_invariant.1 opsW "gB").1,
   (wishlist_store_invariant.1 opsW "gB").2,
   wishlist_store_invariant.2 [mkWishlistItem pendB dtW] "gZ"
     (by with_unfolding_all decide),
   by with_unfolding_all decide,
   by with_unfolding_all decide⟩

set_option maxRecDepth 1000000 in
theorem addToWishlist_restamp_counterexample :
    (addToWishlist (addToWishlist [] pendB dtW) pendB dtW2).map (fun i => i.addedAt) =
      [dtW2] ∧
    (addToWishlist (addToWishlist [] pendB dtW) pendB dtW2).map (fun i => i.lastChecked) =
      [dtW2] ∧
    dtW2 ≠ dtW :=
  ⟨by with_unfolding_all decide, by with_unfolding_all decide,
   by with_unfolding_all decide⟩

/-- C6 (amended): addToWishlist always stamps both addedAt and lastChecked of
the stored entry for the added gameID to the current time — also when the
gameID was already tracked, in which case the existing entry is replaced by
the freshly stamped one (still exactly one entry for that gameID). -/
theorem addToWishlist_restamps (items : List WishlistItem) (p : PendingItem)
    (now : DateTime) :
    (∀ i ∈ addToWishlist items p now, i.gameID = p.gameID →
      i.addedAt = now ∧ i.lastChecked = now) ∧
    (addToWishlist items p now).countP (fun i => i.gameID == p.gameID) = 1 := by
  constructor
  · intro i hi hig
    rw [addToWishlist] at hi
    rcases List.mem_append.mp hi with hf | hn
    · have h2 := (List.mem_filter.mp hf).2
      simp only [decide_eq_true_eq] at h2
      exact absurd hig h2
    · have : i = mkWishlistItem p now := List.mem_singleton.mp hn
      subst this
      exact ⟨rfl, rfl⟩
  · rw [countP_addToWishlist, if_pos rfl]

set_option maxRecDepth 1000000 in
theorem addToWishlist_restamps_witness :
    ((mkWishlistItem pendB dtW2).addedAt = dtW2 ∧
      (mkWishlistItem pendB dtW2).lastChecked = dtW2) ∧
    (addToWishlist (addToWishlist [] pendB dtW) pendB dtW2).countP
      (fun i => i.gameID == pendB.gameID) = 1 :=
  ⟨(addToWishlist_restamps (addToWishlist [] pendB dtW) pendB dtW2).1
      (mkWishlistItem pendB dtW2) (by with_unfolding_all decide)
      (by with_unfolding_all decide),
   (addToWishlist_restamps (addToWishlist [] pendB dtW) pendB dtW2).2⟩

/-- JavaScript String.prototype.trim on a character list: drop whitespace from
both ends. -/
def jsTrim (s : List Char) : List Char :=
  ((s.dropWhile Char.isWhitespace).reverse.dropWhile Char.isWhitespace).reverse

/-- sanitizeString (validation.ts lines 6-13): trim, remove every angle
bracket, keep at most the first 500 characters. -/
def sanitizeString (input : List Char) : List Char :=
  ((jsTrim input).filter (fun c => !(c == '<' || c == '>'))).take 500

/-- Split a character list at the first occurrence of a character: the part
before it and the part after it. -/
def splitFirst (c : Char) : List Char → Option (List Char × List Char)
  | [] => none
  | x :: xs =>
    if x = c then some ([], xs)
    else
      match splitFirst c xs with
      | none => none
      | some (l, r) => some (x :: l, r)

/-- Test of the email regex of validation.ts line 19, anchored
caret [^\s@]+ at [^\s@]+ dot [^\s@]+ dollar: the string splits at its unique
at sign (the three character classes forbid the at sign, so a match forces
exactly one); the part before it is nonempty and has no whitespace; the part
after it has no whitespace and no at sign and contains a dot that is neither
its first nor its last character (the classes allow dots, so any inner dot
can serve as the breakpoint). -/
def emailPatternMatches (s : List Char) : Bool :=
  match splitFirst '@' s with
  | none => false
  | some (loc, dom) =>
    !loc.isEmpty && loc.all (fun c => !c.isWhitespace) &&
    dom.all (fun c => !c.isWhitespace && !(c == '@')) &&
    ((dom.drop 1).dropLast.contains '.')

/-- isValidEmail (validation.ts lines 18-21): the regex test plus the length
bound 254. -/
def isValidEmail (email : List Char) : Bool :=
  emailPatternMatches email && email.length ≤ 254

/-- Payload of an EmailJS transport call (email.ts lines 93-98). -/
structure TransportPayload where
  to_email : List Char
  to_name : List Char
  subject : List Char
  message : List Char
deriving DecidableEq, Repr

/-- EmailData (email.ts lines 11-16). -/
structure EmailData where
  to_email : List Char
  to_name : List Char
  subject : List Char
  message : List Char
deriving DecidableEq, Repr

/-- Result of sendEmail (email.ts line 64). -/
structure SendResult where
  success : Bool
  message : List Char
deriving DecidableEq, Repr

/-- Observable outbound effect of sendEmail: the demo-mode log of the
recipient address, or an actual transport call. -/
inductive EmailEffect where
  | demoLog (to_email : List Char)
  | transportSend (payload : TransportPayload)
deriving DecidableEq, Repr

/-- sendEmail (email.ts lines 64-110).  The configured flag models
isEmailConfigured, the transport function models emailjs.send (its error case
is a thrown exception, caught by the try block), and the returned effect list
records what left the function: a demo log or a transport call. -/
def sendEmail (configured : Bool)
    (transport : TransportPayload → Except (List Char) Unit)
    (data : EmailData) : SendResult × List EmailEffect :=
  if !(isValidEmail data.to_email) then
    ({ success := false, message := "Email inválido".toList }, [])
  else
    let sanitizedData : EmailData :=
      { data with
        to_name := sanitizeString data.to_name
        subject := sanitizeString data.subject
        message := sanitizeString data.message }
    if !configured then
      ({ success := true,
         message := "Modo demo: El email se enviaría a ".toList ++ sanitizedData.to_email },
       [.demoLog sanitizedData.to_email])
    else
      let payload : TransportPayload :=
        { to_email := sanitizedData.to_email, to_name := sanitizedData.to_name,
          subject := sanitizedData.subject, message := sanitizedData.message }
      match transport payload with
      | .ok _ =>
        ({ success := true, message := "Email enviado correctamente".toList },
         [.transportSend payload])
      | .error _ =>
        ({ success := false, message := "Error al enviar email".toList },
         [.transportSend payload])

/-- The payload sendEmail hands to the transport: recipient unchanged, the
other fields sanitized. -/
def sanitizedPayload (data : EmailData) : TransportPayload :=
  { to_email := data.to_email, to_name := sanitizeString data.to_name,
    subject := sanitizeString data.subject, message := sanitizeString data.message }

/-- C7: for a recipient that fails the email-syntax check, sendEmail returns a
failure result directly, with an empty effect trace: no transport call and no
demo-mode simulated send happen, and no exception is raised (the function is
total). -/
theorem sendEmail_invalid_recipient (configured : Bool)
    (transport : TransportPayload → Except (List Char) Unit) (data : EmailData)
    (h : isValidEmail data.to_email = false) :
    sendEmail configured transport data =
      ({ success := false, message := "Email inválido".toList }, []) := by
  rw [sendEmail, h]
  rfl

/-- Invalid-recipient input of the spec example. -/
def invalidEmailData : EmailData :=
  { to_email := "not-an-email".toList, to_name := "Name".toList,
    subject := "Subject".toList, message := "Hello".toList }

set_option maxRecDepth 1000000 in
theorem sendEmail_invalid_recipient_witness :
    isValidEmail invalidEmailData.to_email = false ∧
    sendEmail true (fun _ => .ok ()) invalidEmailData =
      ({ success := false, message := "Email inválido".toList }, []) :=
  ⟨by with_unfolding_all decide,
   sendEmail_invalid_recipient true (fun _ => .ok ()) invalidEmailData
     (by with_unfolding_all decide)⟩

theorem payload_eq_sanitizedPayload (data : EmailData) :
    ({ to_email := data.to_email, to_name := sanitizeString data.to_name,
       subject := sanitizeString data.subject,
       message := sanitizeString data.message } : TransportPayload) =
      sanitizedPayload data := rfl

/-- C8: with a valid recipient, an unconfigured transport yields a success
result whose message is the demo-mode text naming the recipient (the only way
a caller can tell the send was simulated), and a configured transport whose
call throws yields a failure result with the generic message — the exception
never escapes (sendEmail is total and returns the failure result). -/
theorem sendEmail_demo_and_transport_failure (data : EmailData)
    (h : isValidEmail data.to_email = true) :
    (∀ transport, (sendEmail false transport data).1.success = true ∧
      (sendEmail false transport data).1.message =
        "Modo demo: El email se enviaría a ".toList ++ data.to_email) ∧
    (∀ (transport : TransportPayload → Except (List Char) Unit) (e : List Char),
      transport (sanitizedPayload data) = .error e →
      (sendEmail true transport data).1 =
        { success := false, message := "Error al enviar email".toList }) := by
  constructor
  · intro transport
    rw [sendEmail, h]
    exact ⟨rfl, rfl⟩
  · intro transport e he
    rw [sendEmail, h]
    simp only [Bool.not_true, Bool.false_eq_true, if_false, Bool.not_false, if_true]
    rw [payload_eq_sanitizedPayload, he]

/-- Valid-recipient input used by the email witnesses; the name and message
carry surrounding whitespace and angle brackets to exercise sanitization. -/
def validEmailData : EmailData :=
  { to_email := "user@example.com".toList, to_name := "  Bob <admin>  ".toList,
    subject := "Deals <b>report</b>".toList, message := "  hello  ".toList }

set_option maxRecDepth 1000000 in
theorem sendEmail_demo_and_transport_failure_witness :
    ((sendEmail false (fun _ => .ok ()) validEmailData).1.success = true ∧
      (sendEmail false (fun _ => .ok ()) validEmailData).1.message =
        "Modo demo: El email se enviaría a ".toList ++ validEmailData.to_email) ∧
    (sendEmail true (fun _ => .error "boom".toList) validEmailData).1 =
      { success := false, message := "Error al enviar email".toList } :=
  ⟨(sendEmail_demo_and_transport_failure validEmailData
      (by with_unfolding_all decide)).1 (fun _ => .ok ()),
   (sendEmail_demo_and_transport_failure validEmailData
      (by with_unfolding_all decide)).2 (fun _ => .error "boom".toList)
      "boom".toList rfl⟩

/-- C10: every payload handed to the transport carries the recipient address
unchanged and the name, subject and message sanitized; the demo-mode log
carries the recipient address unchanged; and sanitization is exactly trimming
surrounding whitespace, removing every angle bracket, and truncating to at
most 500 characters. -/
theorem sendEmail_sanitizes (configured : Bool)
    (transport : TransportPayload → Except (List Char) Unit) (data : EmailData) :
    (∀ p, EmailEffect.transportSend p ∈ (sendEmail configured transport data).2 →
      p.to_email = data.to_email ∧ p.to_name = sanitizeString data.to_name ∧
      p.subject = sanitizeString data.subject ∧
      p.message = sanitizeString data.message) ∧
    (∀ e, EmailEffect.demoLog e ∈ (sendEmail configured transport data).2 →
      e = data.to_email) ∧
    (∀ s : List Char, (sanitizeString s).length ≤ 500 ∧
      '<' ∉ sanitizeString s ∧ '>' ∉ sanitizeString s ∧
      sanitizeString s =
        ((jsTrim s).filter (fun c => !(c == '<' || c == '>'))).take 500) := by
  refine ⟨?_, ?_, ?_⟩
  · intro p hp
    rw [sendEmail] at hp
    by_cases hv : isValidEmail data.to_email
    · rw [hv] at hp
      by_cases hc : configured
      · subst hc
        simp only [Bool.not_true, Bool.false_eq_true, if_false, Bool.not_false,
          if_true] at hp
        cases htr : transport (sanitizedPayload data) with
        | ok u =>
          rw [payload_eq_sanitizedPayload, htr] at hp
          simp only [List.mem_singleton, EmailEffect.transportSend.injEq] at hp
          subst hp
          exact ⟨rfl, rfl, rfl, rfl⟩
        | error e =>
          rw [payload_eq_sanitizedPayload, htr] at hp
          simp only [List.mem_singleton, EmailEffect.transportSend.injEq] at hp
          subst hp
          exact ⟨rfl, rfl, rfl, rfl⟩
      · rw [Bool.not_eq_true] at hc
        subst hc
        simp at hp
    · rw [Bool.not_eq_true] at hv
      rw [hv] at hp
      simp at hp
  · intro e he
    rw [sendEmail] at he
    by_cases hv : isValidEmail data.to_email
    · rw [hv] at he
      by_cases hc : configured
      · subst hc
        simp only [Bool.not_true, Bool.false_eq_true, if_false, Bool.not_false,
          if_true] at he
        rw [payload_eq_sanitizedPayload] at he
        cases htr : transport (sanitizedPayload data) with
        | ok u => rw [htr] at he; simp at he
        | error x => rw [htr] at he; simp at he
      · rw [Bool.not_eq_true] at hc
        subst hc
        simp only [Bool.not_false, if_true, Bool.not_true, Bool.false_eq_true,
          if_false, List.mem_singleton, EmailEffect.demoLog.injEq] at he
        exact he
    · rw [Bool.not_eq_true] at hv
      rw [hv] at he
      simp at he
  · intro s
    refine ⟨List.length_take_le 500 _, ?_, ?_, rfl⟩
    · intro hmem
      have h1 := List.mem_of_mem_take hmem
      have h2 := (List.mem_filter.mp h1).2
      simp at h2
    · intro hmem
      have h1 := List.mem_of_mem_take hmem
      have h2 := (List.mem_filter.mp h1).2
      simp at h2

set_option maxRecDepth 1000000 in
theorem sendEmail_sanitizes_witness :
    (sanitizedPayload validEmailData).to_email = validEmailData.to_email ∧
    (sanitizedPayload validEmailData).to_name = sanitizeString validEmailData.to_name ∧
    (sanitizedPayload validEmailData).to_name = "Bob admin".toList ∧
    (sanitizeString "  Bob <admin>  ".toList).length ≤ 500 :=
  ⟨((sendEmail_sanitizes true (fun _ => .ok ()) validEmailData).1
      (sanitizedPayload validEmailData) (by with_unfolding_all decide)).1,
   ((sendEmail_sanitizes true (fun _ => .ok ()) validEmailData).1
      (sanitizedPayload validEmailData) (by with_unfolding_all decide)).2.1,
   by with_unfolding_all decide,
   ((sendEmail_sanitizes true (fun _ => .ok ()) validEmailData).2.2
      "  Bob <admin>  ".toList).1⟩

/-- Decimal digit character of a value below ten. -/
def digitChar (d : Nat) : Char := Char.ofNat (48 + d)

/-- Numeric value of a decimal digit character, none otherwise. -/
def digitVal (c : Char) : Option Nat :=
  if '0' ≤ c ∧ c ≤ '9' then some (c.toNat - 48) else none

/-- Two-digit zero-padded decimal rendering (for values below 100). -/
def pad2 (n : Nat) : List Char := [digitChar (n / 10 % 10), digitChar (n % 10)]

/-- Three-digit zero-padded decimal rendering (for values below 1000). -/
def pad3 (n : Nat) : List Char :=
  [digitChar (n / 100 % 10), digitChar (n / 10 % 10), digitChar (n % 10)]

/-- Four-digit zero-padded decimal rendering (for values below 10000). -/
def pad4 (n : Nat) : List Char :=
  [digitChar (n / 1000 % 10), digitChar (n / 100 % 10),
   digitChar (n / 10 % 10), digitChar (n % 10)]

/-- Date.prototype.toISOString for four-digit years:
YYYY-MM-DDTHH:mm:ss.sssZ.  JSON.stringify serializes a Date through this
rendering (saveLocalWishlist, part_001 line 67). -/
def toISOString (dt : DateTime) : List Char :=
  pad4 dt.year ++ ('-' :: (pad2 dt.month ++ ('-' :: (pad2 dt.day ++
    ('T' :: (pad2 dt.hour ++ (':' :: (pad2 dt.minute ++ (':' :: (pad2 dt.second ++
      ('.' :: (pad3 dt.millisecond ++ ['Z']))))))))))))

/-- Consume one expected literal character. -/
def parseChar (c : Char) : List Char → Option (List Char)
  | [] => none
  | x :: rest => if x = c then some rest else none

/-- Consume two digits as a number below 100. -/
def parse2 : List Char → Option (Nat × List Char)
  | c1 :: c2 :: rest => do
    let a ← digitVal c1
    let b ← digitVal c2
    pure (10 * a + b, rest)
  | _ => none

/-- Consume three digits as a number below 1000. -/
def parse3 : List Char → Option (Nat × List Char)
  | c1 :: c2 :: c3 :: rest => do
    let a ← digitVal c1
    let b ← digitVal c2
    let c ← digitVal c3
    pure (100 * a + 10 * b + c, rest)
  | _ => none

/-- Consume four digits as a number below 10000. -/
def parse4 : List Char → Option (Nat × List Char)
  | c1 :: c2 :: c3 :: c4 :: rest => do
    let a ← digitVal c1
    let b ← digitVal c2
    let c ← digitVal c3
    let d ← digitVal c4
    pure (1000 * a + 100 * b + 10 * c + d, rest)
  | _ => none

/-- Parsing of the ISO timestamp format emitted by toISOString; this is the
branch of the JavaScript Date constructor that loadLocalWishlist exercises
(part_001 lines 52-56, new Date on the stored string).  A string in any other
shape is modelled as an unparsed (Invalid Date) outcome. -/
def parseISODate (s : List Char) : Option DateTime := do
  let (y, s) ← parse4 s
  let s ← parseChar '-' s
  let (mo, s) ← parse2 s
  let s ← parseChar '-' s
  let (d, s) ← parse2 s
  let s ← parseChar 'T' s
  let (h, s) ← parse2 s
  let s ← parseChar ':' s
  let (mi, s) ← parse2 s
  let s ← parseChar ':' s
  let (sec, s) ← parse2 s
  let s ← parseChar '.' s
  let (ms, s) ← parse3 s
  let s ← parseChar 'Z' s
  match s with
  | [] => pure { year := y, month := mo, day := d, hour := h, minute := mi,
                 second := sec, millisecond := ms }
  | _ => none

theorem digitVal_digitChar (d : Nat) (h : d < 10) :
    digitVal (digitChar d) = some d := by
  interval_cases d <;> decide

theorem parseChar_cons (c : Char) (rest : List Char) :
    parseChar c (c :: rest) = some rest := by
  simp [parseChar]

theorem parse2_pad2 (n : Nat) (h : n < 100) (rest : List Char) :
    parse2 (pad2 n ++ rest) = some (n, rest) := by
  have h1 : n / 10 % 10 < 10 := Nat.mod_lt _ (by norm_num)
  have h2 : n % 10 < 10 := Nat.mod_lt _ (by norm_num)
  rw [pad2, List.cons_append, List.cons_append, List.nil_append, parse2,
    digitVal_digitChar _ h1, digitVal_digitChar _ h2]
  simp only [Option.bind_eq_bind, Option.some_bind, Option.pure_def,
    Option.some.injEq, Prod.mk.injEq, and_true]
  omega

theorem parse3_pad3 (n : Nat) (h : n < 1000) (rest : List Char) :
    parse3 (pad3 n ++ rest) = some (n, rest) := by
  have h1 : n / 100 % 10 < 10 := Nat.mod_lt _ (by norm_num)
  have h2 : n / 10 % 10 < 10 := Nat.mod_lt _ (by norm_num)
  have h3 : n % 10 < 10 := Nat.mod_lt _ (by norm_num)
  rw [pad3, List.cons_append, List.cons_append, List.cons_append,
    List.nil_append, parse3, digitVal_digitChar _ h1, digitVal_digitChar _ h2,
    digitVal_digitChar _ h3]
  simp only [Option.bind_eq_bind, Option.some_bind, Option.pure_def,
    Option.some.injEq, Prod.mk.injEq, and_true]
  omega

theorem parse4_pad4 (n : Nat) (h : n < 10000) (rest : List Char) :
    parse4 (pad4 n ++ rest) = some (n, rest) := by
  have h1 : n / 1000 % 10 < 10 := Nat.mod_lt _ (by norm_num)
  have h2 : n / 100 % 10 < 10 := Nat.mod_lt _ (by norm_num)
  have h3 : n / 10 % 10 < 10 := Nat.mod_lt _ (by norm_num)
  have h4 : n % 10 < 10 := Nat.mod_lt _ (by norm_num)
  rw [pad4, List.cons_append, List.cons_append, List.cons_append,
    List.cons_append, List.nil_append, parse4, digitVal_digitChar _ h1,
    digitVal_digitChar _ h2, digitVal_digitChar _ h3, digitVal_digitChar _ h4]
  simp only [Option.bind_eq_bind, Option.some_bind, Option.pure_def,
    Option.some.injEq, Prod.mk.injEq, and_true]
  omega

set_option maxHeartbeats 4000000 in
theorem parseISODate_toISOString (dt : DateTime) (h : ValidDateTime dt) :
    parseISODate (toISOString dt) = some dt := by
  obtain ⟨hy, hm1, hm2, hd1, hd2, hh, hmi, hs, hms⟩ := h
  rw [toISOString, parseISODate]
  simp only [Option.bind_eq_bind, Option.pure_def]
  rw [parse4_pad4 dt.year (by omega)]
  simp only [Option.some_bind]
  rw [parseChar_cons]
  simp only [Option.some_bind]
  rw [parse2_pad2 dt.month (by omega)]
  simp only [Option.some_bind]
  rw [parseChar_cons]
  simp only [Option.some_bind]
  rw [parse2_pad2 dt.day (by omega)]
  simp only [Option.some_bind]
  rw [parseChar_cons]
  simp only [Option.some_bind]
  rw [parse2_pad2 dt.hour (by omega)]
  simp only [Option.some_bind]
  rw [parseChar_cons]
  simp only [Option.some_bind]
  rw [parse2_pad2 dt.minute (by omega)]
  simp only [Option.some_bind]
  rw [parseChar_cons]
  simp only [Option.some_bind]
  rw [parse2_pad2 dt.second (by omega)]
  simp only [Option.some_bind]
  rw [parseChar_cons]
  simp only [Option.some_bind]
  rw [parse3_pad3 dt.millisecond (by omega)]
  simp only [Option.some_bind]
  rw [parseChar_cons]
  simp only [Option.some_bind]

/-- Shape of a wishlist item as stored in local storage: the JSON value
written by saveLocalWishlist (part_001 line 67), where JSON.stringify renders
each Date as its ISO string and keeps the other fields as JSON strings,
numbers and nulls. -/
structure StoredItem where
  id : String
  gameID : String
  gameTitle : String
  steamAppID : Option String
  thumb : String
  targetPrice : Option ℚ
  currentBestPrice : ℚ
  addedAt : List Char
  lastChecked : List Char
deriving DecidableEq, Repr

/-- Serialization of one wishlist item (saveLocalWishlist, part_001 lines
65-71): dates become ISO strings, every other field passes through. -/
def wishlistItemToStored (i : WishlistItem) : StoredItem :=
  { id := i.id, gameID := i.gameID, gameTitle := i.gameTitle,
    steamAppID := i.steamAppID, thumb := i.thumb, targetPrice := i.targetPrice,
    currentBestPrice := i.currentBestPrice, addedAt := toISOString i.addedAt,
    lastChecked := toISOString i.lastChecked }

/-- Deserialization of one stored item (loadLocalWishlist, part_001 lines
52-56): the spread keeps every field, and new Date rebuilds both timestamps
from their strings; a string that does not parse (an Invalid Date) yields
none. -/
def storedToWishlistItem (s : StoredItem) : Option WishlistItem := do
  let addedAt ← parseISODate s.addedAt
  let lastChecked ← parseISODate s.lastChecked
  pure { id := s.id, gameID := s.gameID, gameTitle := s.gameTitle,
         steamAppID := s.steamAppID, thumb := s.thumb,
         targetPrice := s.targetPrice, currentBestPrice := s.currentBestPrice,
         addedAt := addedAt, lastChecked := lastChecked }

/-- C9: for valid timestamps, serializing a wishlist item to its local-storage
form and reading it back reproduces the item exactly — in particular the
gameID, the targetPrice and both timestamps (to the millisecond, hence to the
same calendar date and time) — and the chronological order of the addedAt
timestamps of two items is preserved by the round trip. -/
theorem wishlistItem_roundtrip (i j : WishlistItem)
    (hi1 : ValidDateTime i.addedAt) (hi2 : ValidDateTime i.lastChecked)
    (hj1 : ValidDateTime j.addedAt) (hj2 : ValidDateTime j.lastChecked) :
    storedToWishlistItem (wishlistItemToStored i) = some i ∧
    (∀ i2 j2, storedToWishlistItem (wishlistItemToStored i) = some i2 →
      storedToWishlistItem (wishlistItemToStored j) = some j2 →
      dateKey i.addedAt < dateKey j.addedAt →
      dateKey i2.addedAt < dateKey j2.addedAt) := by
  have hrt : ∀ k : WishlistItem, ValidDateTime k.addedAt →
      ValidDateTime k.lastChecked →
      storedToWishlistItem (wishlistItemToStored k) = some k := by
    intro k h1 h2
    rw [wishlistItemToStored, storedToWishlistItem]
    simp only [Option.bind_eq_bind, Option.pure_def,
      parseISODate_toISOString _ h1, parseISODate_toISOString _ h2,
      Option.some_bind]
  refine ⟨hrt i hi1 hi2, ?_⟩
  intro i2 j2 h2 h3 hlt
  rw [hrt i hi1 hi2] at h2
  rw [hrt j hj1 hj2] at h3
  obtain rfl : i2 = i := (Option.some.inj h2).symm
  obtain rfl : j2 = j := (Option.some.inj h3).symm
  exact hlt

/-- A later wishlist item used by the round-trip witness. -/
def itemLater : WishlistItem :=
  { id := "gC", gameID := "gC", gameTitle := "Game C", steamAppID := none,
    thumb := "", targetPrice := none, currentBestPrice := 20,
    addedAt := dtW2, lastChecked := dtW2 }

set_option maxRecDepth 1000000 in
theorem wishlistItem_roundtrip_witness :
    storedToWishlistItem (wishlistItemToStored itemB) = some itemB ∧
    storedToWishlistItem (wishlistItemToStored itemLater) = some itemLater ∧
    dateKey itemB.addedAt < dateKey itemLater.addedAt :=
  ⟨(wishlistItem_roundtrip itemB itemLater (by with_unfolding_all decide)
      (by with_unfolding_all decide) (by with_unfolding_all decide)
      (by with_unfolding_all decide)).1,
   (wishlistItem_roundtrip itemLater itemB (by with_unfolding_all decide)
      (by with_unfolding_all decide) (by with_unfolding_all decide)
      (by with_unfolding_all decide)).1,
   (wishlistItem_roundtrip itemB itemLater (by with_unfolding_all decide)
      (by with_unfolding_all decide) (by with_unfolding_all decide)
      (by with_unfolding_all decide)).2 itemB itemLater
     (wishlistItem_roundtrip itemB itemLater (by with_unfolding_all decide)
      (by with_unfolding_all decide) (by with_unfolding_all decide)
      (by with_unfolding_all decide)).1
     (wishlistItem_roundtrip itemLater itemB (by with_unfolding_all decide)
      (by with_unfolding_all decide) (by with_unfolding_all decide)
      (by with_unfolding_all decide)).1
     (by with_unfolding_all decide)⟩
